import Mathlib

set_option maxRecDepth 100000

/-!
# Verification of the text-batching and correction-mapping pipeline

Shallow embedding of the core pipeline of the `demo_vna_cmc` repository:
the batch packer `find_dumb_text_batches` and element collector
`get_common_text_elements` from `backend/helpers.py`, the correction join
of `WebCrawler.highlight_incorrect_text` from `backend/webcrawler.py`, the
word-diff renderer `make_both_bold` from `backend/helpers.py`, and the CSV
export of `main.py`.

External collaborators are modelled as parameters or from their documented
interfaces: the tokenizer (tiktoken) is an arbitrary function
`tok : String → Nat`; the browser engine is a function from selector to the
sequence of extraction outcomes; the word aligner (difflib) and the CSV
writer (pandas) are modelled from the spec, as noted on their definitions.
-/

namespace VnaCmc

/-- The `Element` dataclass of `backend/helpers.py` (the opaque Playwright
locator handle is dropped: the pipeline under verification never inspects
it). -/
structure Element where
  idx : Int
  text : String
deriving DecidableEq

/-- Hexadecimal digit, lowercase, as used by the JSON `\u00XX` escapes. -/
def hexDigit (n : Nat) : Char :=
  if n < 10 then Char.ofNat (48 + n) else Char.ofNat (87 + n)

/-- JSON escaping of one character as performed by `json.dumps` with
`ensure_ascii=False`: quote, backslash, the named control escapes, and
`\u00XX` for the remaining control characters; everything else verbatim. -/
def jsonEscapeChar (c : Char) : String :=
  if c = '"' then "\\\""
  else if c = '\\' then "\\\\"
  else if c = '\n' then "\\n"
  else if c = '\t' then "\\t"
  else if c = '\r' then "\\r"
  else if c = Char.ofNat 8 then "\\b"
  else if c = Char.ofNat 12 then "\\f"
  else if c.toNat < 32 then
    "\\u00" ++ String.mk [hexDigit (c.toNat / 16), hexDigit (c.toNat % 16)]
  else String.singleton c

/-- JSON escaping of a string, character by character. -/
def jsonEscape (s : String) : String :=
  String.join (s.data.map jsonEscapeChar)

/-- Serialization of one element as `json.dumps` renders the dict with keys
`idx`, `text` inside a list at `indent=2` (brace, two-space item indent,
four-space key indent). -/
def serElement (e : Element) : String :=
  "\x7b\n    \"idx\": " ++ toString e.idx ++ ",\n    \"text\": \"" ++
    jsonEscape e.text ++ "\"\n  \x7d"

/-- `json.dumps(batch, ensure_ascii=False, indent=2)` for a list of
`idx`/`text` dicts: `[]` for the empty list, otherwise the items joined by
a comma, newline and two-space indent. -/
def serializeBatch (items : List Element) : String :=
  match items with
  | [] => "[]"
  | _ => "[\n  " ++ String.intercalate ",\n  " (items.map serElement) ++ "\n]"

/-- The loop of `find_dumb_text_batches` (helpers.py lines 45-75),
parameterized by the external tokenizer `tok` (tiktoken at call sites).
State: `batches` is the list of closed JSON batch strings, `current_batch`
the accumulator. A tentative append that fits is committed; one that does
not fit closes the accumulator when it is non-empty, and otherwise skips
(drops) the element. At the end a non-empty accumulator is closed. -/
def packLoop (tok : String → Nat) (MAX_TOKENS : Nat) :
    List Element → List String → List Element → List String
  | [], batches, current_batch =>
      if current_batch.isEmpty then batches
      else batches ++ [serializeBatch current_batch]
  | elem :: rest, batches, current_batch =>
      let temp_batch := current_batch ++ [elem]
      if tok (serializeBatch temp_batch) ≤ MAX_TOKENS then
        packLoop tok MAX_TOKENS rest batches temp_batch
      else if current_batch.isEmpty then
        packLoop tok MAX_TOKENS rest batches current_batch
      else
        packLoop tok MAX_TOKENS rest (batches ++ [serializeBatch current_batch]) [elem]

/-- `find_dumb_text_batches(elements, MAX_TOKENS)` of helpers.py: empty
input returns no batches, otherwise the greedy packing loop starting from
an empty accumulator. -/
def find_dumb_text_batches (tok : String → Nat) (MAX_TOKENS : Nat)
    (elements : List Element) : List String :=
  if elements.isEmpty then [] else packLoop tok MAX_TOKENS elements [] []

/-- Ghost companion of `packLoop` that keeps each batch as its list of
elements instead of its serialization, and also returns, in order, the
elements dropped at the oversize warning (helpers.py line 60). The output
strings of `packLoop` are exactly the serializations of the first
component (`packLoop_eq_packItemsLoop`). -/
def packItemsLoop (tok : String → Nat) (MAX_TOKENS : Nat) :
    List Element → List Element → List (List Element) × List Element
  | [], current_batch =>
      (if current_batch.isEmpty then [] else [current_batch], [])
  | elem :: rest, current_batch =>
      if tok (serializeBatch (current_batch ++ [elem])) ≤ MAX_TOKENS then
        packItemsLoop tok MAX_TOKENS rest (current_batch ++ [elem])
      else if current_batch.isEmpty then
        let r := packItemsLoop tok MAX_TOKENS rest current_batch
        (r.1, elem :: r.2)
      else
        let r := packItemsLoop tok MAX_TOKENS rest [elem]
        (current_batch :: r.1, r.2)

/-- The batches of `find_dumb_text_batches`, as lists of elements. -/
def batchItems (tok : String → Nat) (MAX_TOKENS : Nat)
    (elements : List Element) : List (List Element) :=
  (packItemsLoop tok MAX_TOKENS elements []).1

/-- The elements dropped (and reported with a warning) by
`find_dumb_text_batches`. -/
def droppedItems (tok : String → Nat) (MAX_TOKENS : Nat)
    (elements : List Element) : List Element :=
  (packItemsLoop tok MAX_TOKENS elements []).2

/-- An element whose serialization alone already exceeds the budget. -/
def singleOver (tok : String → Nat) (MAX_TOKENS : Nat) (e : Element) : Bool :=
  decide (MAX_TOKENS < tok (serializeBatch [e]))

/-- The single call `WebCrawler.highlight_incorrect_text` makes to the
correction service (webcrawler.py line 109): only `self._text_batches[0]`
is ever passed to `spelling_check`; `none` models the IndexError raised
when no batch exists. The value is the list of batch arguments sent during
the run. -/
def spelling_check_calls (text_batches : List String) : Option (List String) :=
  (text_batches[0]?).map (fun b => [b])

/-- The `Result` record of backend/llm.py: a corrected text and the index
it refers to. -/
structure Result where
  content : String
  idx : Int
deriving DecidableEq

/-- Python list indexing `xs[i]` for an `int` index: a non-negative index
counts from the front, a negative one from the back; `none` models the
IndexError raised for an out-of-range index. -/
def pyGet (xs : List Element) (i : Int) : Option Element :=
  let j : Int := if i < 0 then (xs.length : Int) + i else i
  if 0 ≤ j then xs[j.toNat]? else none

/-- The correction join of `WebCrawler.highlight_incorrect_text`
(webcrawler.py lines 113-125): each returned correction is looked up as
`self._locators_element[idx]` with no bounds check, and the pair of
original text and corrected content is collected into the two DataFrame
columns; `Except.error i` models the uncaught IndexError escaping the loop
at index `i` — everything already accumulated is discarded and no
DataFrame is produced. -/
def buildRecords (locators_element : List Element) :
    List Result → Except Int (List (String × String))
  | [] => Except.ok []
  | res :: rest =>
      match pyGet locators_element res.idx with
      | none => Except.error res.idx
      | some e =>
          match buildRecords locators_element rest with
          | Except.error i => Except.error i
          | Except.ok tail => Except.ok ((e.text, res.content) :: tail)

/-- The fixed selector list of `get_common_text_elements`
(helpers.py lines 86-91). -/
def base_selectors : List String :=
  ["p", "span", "a",
   "h1", "h2", "h3", "h4", "h5", "h6",
   "li", "label", "small", "strong", "em", "i", "b", "u",
   "td", "th", "cite", "figcaption", "mark", "time"]

/-- The site-specific selectors added afterwards
(helpers.py lines 118-123). -/
def special_locators : List String :=
  ["div.logo-text", "div.logo-subtitle", "button.language-selector",
   "div.skypriority-logo"]

/-- Python `str.strip()`: leading and trailing whitespace removed. -/
def pyStrip (s : String) : String :=
  String.mk
    (((s.data.dropWhile Char.isWhitespace).reverse.dropWhile
      Char.isWhitespace).reverse)

/-- One selector pass of `get_common_text_elements`: `texts` is the
sequence of `inner_text` outcomes for the matched elements of one selector
(`none` models a per-element extraction exception, which is swallowed);
every non-empty stripped text is appended with the next counter value. -/
def collectTexts (texts : List (Option String)) (cnt : Nat) : List Element :=
  match texts with
  | [] => []
  | none :: rest => collectTexts rest cnt
  | some t :: rest =>
      if pyStrip t = "" then collectTexts rest cnt
      else ⟨(cnt : Int), pyStrip t⟩ :: collectTexts rest (cnt + 1)

/-- The selector loops of `get_common_text_elements`: the counter is
shared across selectors and advances by the number of elements each
selector contributed. -/
def collectAll (page : String → List (Option String)) :
    List String → Nat → List Element
  | [], _ => []
  | sel :: rest, cnt =>
      collectTexts (page sel) cnt ++
        collectAll page rest (cnt + (collectTexts (page sel) cnt).length)

/-- `get_common_text_elements` (helpers.py lines 80-154). The browser
engine collaborator is modelled as the function giving, per selector, the
sequence of extraction outcomes of its matches; the base selectors are
walked first, then the special ones, with one shared counter starting
at 0. -/
def get_common_text_elements (page : String → List (Option String)) :
    List Element :=
  collectAll page (base_selectors ++ special_locators) 0

/-- ASCII whitespace as recognized by Python `str.split()` (the Unicode
space classes are not modelled; the texts considered here are ASCII). -/
def pyIsSpace (c : Char) : Bool :=
  c = ' ' || c = '\t' || c = '\n' || c = '\r' ||
    c = Char.ofNat 11 || c = Char.ofNat 12

/-- Accumulator loop of `pySplit`: gather the current word in reverse. -/
def splitWordsAux : List Char → List Char → List String
  | [], acc => if acc.isEmpty then [] else [String.mk acc.reverse]
  | c :: cs, acc =>
      if pyIsSpace c then
        if acc.isEmpty then splitWordsAux cs []
        else String.mk acc.reverse :: splitWordsAux cs []
      else splitWordsAux cs (c :: acc)

/-- Python `str.split()` with no separator, as used on both texts by
`make_both_bold`: split on runs of whitespace, producing no empty words. -/
def pySplit (s : String) : List String :=
  splitWordsAux s.data []

/-- One aligned step of the word diff: a word present in both sequences,
a word only in the wrong text, or a word only in the corrected text. The
difflib opcodes mark exactly the words outside the matched alignment, so a
step list carries the same information as the opcode ranges. -/
inductive DiffStep where
  | keep : String → DiffStep
  | remove : String → DiffStep
  | insert : String → DiffStep
deriving DecidableEq

/-- Number of matched words of an alignment. -/
def countKeep (steps : List DiffStep) : Nat :=
  steps.countP fun s =>
    match s with
    | DiffStep.keep _ => true
    | _ => false

/-- Modelled from the spec: the external word aligner collaborator,
`difflib.SequenceMatcher` over the two word lists (spec section 4.4: a
longest-common-subsequence-style matcher reporting runs of equal,
replaced, inserted and deleted words). The alignment maximizes the number
of matched words; the popularity (autojunk) heuristic of the concrete
library is not modelled. -/
def diffWords : List String → List String → List DiffStep
  | [], bs => bs.map DiffStep.insert
  | a :: as, [] => (a :: as).map DiffStep.remove
  | a :: as, b :: bs =>
      if a = b then DiffStep.keep a :: diffWords as bs
      else
        let dl := DiffStep.remove a :: diffWords as (b :: bs)
        let dr := DiffStep.insert b :: diffWords (a :: as) bs
        if countKeep dr ≤ countKeep dl then dl else dr
termination_by a b => a.length + b.length

/-- The visual marker of `make_both_bold`: the word wrapped in `**`. -/
def boldMark (w : String) : String := "**" ++ w ++ "**"

/-- The `wrong_highlighted` column: words of the wrong text in order,
those outside an equal run wrapped in the marker
(helpers.py lines 339-344). -/
def markedWrong (steps : List DiffStep) : List String :=
  steps.filterMap fun s =>
    match s with
    | DiffStep.keep w => some w
    | DiffStep.remove w => some (boldMark w)
    | DiffStep.insert _ => none

/-- The `correct_highlighted` column: words of the corrected text in
order, those outside an equal run wrapped in the marker
(helpers.py lines 345-348). -/
def markedCorrect (steps : List DiffStep) : List String :=
  steps.filterMap fun s =>
    match s with
    | DiffStep.keep w => some w
    | DiffStep.remove _ => none
    | DiffStep.insert w => some (boldMark w)

/-- `make_both_bold` of helpers.py (lines 328-350): split both texts into
words, align them, wrap every word outside an equal run in the marker, and
join each side back with single spaces. -/
def make_both_bold (wrong_text correct_text : String) : String × String :=
  (String.intercalate " "
    (markedWrong (diffWords (pySplit wrong_text) (pySplit correct_text))),
   String.intercalate " "
    (markedCorrect (diffWords (pySplit wrong_text) (pySplit correct_text))))

/-- `highlight_both_columns_differences` of helpers.py: the row-wise
application of `make_both_bold` to the two columns; a DataFrame with the
columns `Wrong Text` and `Correct Text Suggest` is modelled as its list of
row pairs. -/
def highlight_both_columns_differences (df : List (String × String)) :
    List (String × String) :=
  df.map fun row => make_both_bold row.1 row.2

/-- CSV escaping of quotes inside a quoted field. -/
def csvEscapeQuotes (s : String) : String :=
  String.join (s.data.map fun c =>
    if c = '"' then "\"\"" else String.singleton c)

/-- Minimal CSV quoting of one field: quoted only when it contains a
comma, quote or line break. -/
def csvField (s : String) : String :=
  if s.data.any (fun c => c = ',' || c = '"' || c = '\n' || c = '\r') then
    "\"" ++ csvEscapeQuotes s ++ "\""
  else s

/-- Modelled from the spec: the external pandas `DataFrame.to_csv`
collaborator for the two-column frame with `index=False` (main.py line
186): a header line with the two column names and one line per row, no
index column, minimal quoting. Per the pandas interface, the `encoding`
argument — `utf-8-sig` at the call site — is not applied when the target
is a text buffer such as the `io.StringIO` used there, so the produced
text carries no byte-order mark; `st.download_button` then serves
`csv_buffer.getvalue()` UTF-8-encoded as is. -/
def to_csv_no_index (rows : List (String × String)) : String :=
  "Wrong Text,Correct Text Suggest\n" ++
    String.join (rows.map fun r => csvField r.1 ++ "," ++ csvField r.2 ++ "\n")

/-- The spell-check CSV artifact of main.py (lines 179-192): the diff
highlighting applied to every record, then the CSV rendering. -/
def spell_check_export (records : List (String × String)) : String :=
  to_csv_no_index (highlight_both_columns_differences records)

/-- A concrete page for evaluating the collector: the `p` selector matches
four elements, one failing extraction and one whitespace-only. -/
def samplePage : String → List (Option String) := fun sel =>
  if sel = "p" then [some "hello", none, some "  ", some "world"] else []

/-- The strings returned by the packing loop are the serializations of the
batches of the ghost loop, appended to the accumulator. -/
theorem packLoop_eq_packItemsLoop (tok : String → Nat) (MAX : Nat) :
    ∀ (els : List Element) (batches : List String) (current : List Element),
      packLoop tok MAX els batches current =
        batches ++ (packItemsLoop tok MAX els current).1.map serializeBatch := by
  intro els
  induction els with
  | nil =>
      intro batches current
      by_cases h : current.isEmpty <;> simp [packLoop, packItemsLoop, h]
  | cons e rest ih =>
      intro batches current
      simp only [packLoop, packItemsLoop]
      by_cases h1 : tok (serializeBatch (current ++ [e])) ≤ MAX
      · simp only [if_pos h1]
        exact ih batches (current ++ [e])
      · simp only [if_neg h1]
        by_cases h2 : current.isEmpty
        · simpa only [if_pos h2] using ih batches current
        · simp only [if_neg h2]
          rw [ih (batches ++ [serializeBatch current]) [e]]
          simp

/-- Once the accumulator is non-empty it never empties again, so no
element is dropped from that point on. -/
theorem packItemsLoop_dropped_nil (tok : String → Nat) (MAX : Nat) :
    ∀ (els : List Element) (current : List Element), current.isEmpty = false →
      (packItemsLoop tok MAX els current).2 = [] := by
  intro els
  induction els with
  | nil => intro current _; simp [packItemsLoop]
  | cons e rest ih =>
      intro current h
      simp only [packItemsLoop]
      by_cases h1 : tok (serializeBatch (current ++ [e])) ≤ MAX
      · simp only [if_pos h1]
        exact ih (current ++ [e]) (by simp)
      · simp only [if_neg h1, h, Bool.false_eq_true, if_false]
        exact ih [e] (by simp)

/-- Partition invariant of the packing loop: the dropped elements followed
by the concatenation of all batches reproduce the accumulator followed by
the remaining input. -/
theorem packItemsLoop_partition (tok : String → Nat) (MAX : Nat) :
    ∀ (els : List Element) (current : List Element),
      (packItemsLoop tok MAX els current).2 ++
        ((packItemsLoop tok MAX els current).1.flatten) = current ++ els := by
  intro els
  induction els with
  | nil =>
      intro current
      by_cases h : current.isEmpty
      · simp [packItemsLoop, h, List.isEmpty_iff.mp h]
      · simp [packItemsLoop, h]
  | cons e rest ih =>
      intro current
      simp only [packItemsLoop]
      by_cases h1 : tok (serializeBatch (current ++ [e])) ≤ MAX
      · simp only [if_pos h1]
        rw [ih (current ++ [e])]
        simp
      · simp only [if_neg h1]
        by_cases h2 : current.isEmpty
        · simp only [if_pos h2]
          have := ih current
          rw [List.isEmpty_iff.mp h2] at this ⊢
          simpa using this
        · simp only [if_neg h2]
          have hdrop := packItemsLoop_dropped_nil tok MAX rest [e] (by simp)
          have := ih [e]
          rw [hdrop] at this ⊢
          simp only [List.nil_append] at this ⊢
          simp [List.flatten, this]

/-- The elements the packer drops are exactly the maximal prefix of the
input whose members each exceed the budget on their own. -/
theorem droppedItems_eq_takeWhile (tok : String → Nat) (MAX : Nat) :
    ∀ els : List Element,
      droppedItems tok MAX els = els.takeWhile (singleOver tok MAX) := by
  intro els
  induction els with
  | nil => simp [droppedItems, packItemsLoop]
  | cons e rest ih =>
      simp only [droppedItems, packItemsLoop, List.nil_append, List.takeWhile]
      by_cases h1 : tok (serializeBatch [e]) ≤ MAX
      · have hs : singleOver tok MAX e = false := by
          simp [singleOver]; omega
        simp only [if_pos h1, hs]
        exact packItemsLoop_dropped_nil tok MAX rest [e] (by simp)
      · have hs : singleOver tok MAX e = true := by
          simp [singleOver]; omega
        simp only [if_neg h1, List.isEmpty_nil, if_true, hs]
        simpa [droppedItems] using ih

/-- All batch contents in order are the input with its dropped prefix
removed. -/
theorem batchItems_join_eq_dropWhile (tok : String → Nat) (MAX : Nat)
    (els : List Element) :
    (batchItems tok MAX els).flatten = els.dropWhile (singleOver tok MAX) := by
  have hpart := packItemsLoop_partition tok MAX els []
  have hdrop := droppedItems_eq_takeWhile tok MAX els
  simp only [droppedItems] at hdrop
  rw [hdrop] at hpart
  simp only [List.nil_append] at hpart
  have : els.takeWhile (singleOver tok MAX) ++ (batchItems tok MAX els).flatten =
      els.takeWhile (singleOver tok MAX) ++ els.dropWhile (singleOver tok MAX) := by
    rw [List.takeWhile_append_dropWhile]
    exact hpart
  exact List.append_cancel_left this

/-- The string batches are the serializations of the item batches. -/
theorem find_dumb_text_batches_eq_map (tok : String → Nat) (MAX : Nat)
    (elements : List Element) :
    find_dumb_text_batches tok MAX elements =
      (batchItems tok MAX elements).map serializeBatch := by
  by_cases h : elements.isEmpty
  · rw [List.isEmpty_iff.mp h]
    simp [find_dumb_text_batches, batchItems, packItemsLoop]
  · simp only [find_dumb_text_batches, h, Bool.false_eq_true, if_false]
    simpa [batchItems] using packLoop_eq_packItemsLoop tok MAX elements [] []

/-- A failed lookup anywhere in the correction list makes the whole join
fail: `buildRecords` succeeds only when every index resolves. -/
theorem buildRecords_error_of_bad_idx :
    ∀ (els : List Element) (rs : List Result),
      (∃ r ∈ rs, pyGet els r.idx = none) →
      ∃ i, buildRecords els rs = Except.error i := by
  intro els rs
  induction rs with
  | nil => intro h; simp at h
  | cons r rest ih =>
      intro h
      rcases h with ⟨r', hr', hnone⟩
      rcases List.mem_cons.mp hr' with heq | hmem
      · subst heq
        exact ⟨r'.idx, by simp [buildRecords, hnone]⟩
      · cases hcase : pyGet els r.idx with
        | none => exact ⟨r.idx, by simp [buildRecords, hcase]⟩
        | some e =>
            obtain ⟨i, hi⟩ := ih ⟨r', hmem, hnone⟩
            exact ⟨i, by simp [buildRecords, hcase, hi]⟩

/-- Within one selector pass, the element at position `i` carries index
`cnt + i`. -/
theorem collectTexts_idx :
    ∀ (texts : List (Option String)) (cnt i : Nat) (e : Element),
      (collectTexts texts cnt)[i]? = some e → e.idx = ((cnt + i : Nat) : Int)
  | [], cnt, i, e => by simp [collectTexts]
  | none :: rest, cnt, i, e => by
      simp only [collectTexts]
      exact collectTexts_idx rest cnt i e
  | some t :: rest, cnt, i, e => by
      simp only [collectTexts]
      by_cases h : pyStrip t = ""
      · simp only [if_pos h]
        exact collectTexts_idx rest cnt i e
      · simp only [if_neg h]
        match i with
        | 0 =>
            intro hh
            simp only [List.getElem?_cons_zero, Option.some.injEq] at hh
            rw [← hh]
            simp
        | i + 1 =>
            intro hh
            simp only [List.getElem?_cons_succ] at hh
            rw [collectTexts_idx rest (cnt + 1) i e hh]
            congr 1
            omega

/-- Across the selector loop, the element at position `i` carries index
`cnt + i`. -/
theorem collectAll_idx (page : String → List (Option String)) :
    ∀ (sels : List String) (cnt i : Nat) (e : Element),
      (collectAll page sels cnt)[i]? = some e → e.idx = ((cnt + i : Nat) : Int)
  | [], cnt, i, e => by simp [collectAll]
  | sel :: rest, cnt, i, e => by
      simp only [collectAll]
      intro h
      rw [List.getElem?_append] at h
      by_cases hlt : i < (collectTexts (page sel) cnt).length
      · rw [if_pos hlt] at h
        exact collectTexts_idx _ cnt i e h
      · rw [if_neg hlt] at h
        push_neg at hlt
        rw [collectAll_idx page rest
          (cnt + (collectTexts (page sel) cnt).length)
          (i - (collectTexts (page sel) cnt).length) e h]
        congr 1
        omega

/-- The aligner matches two identical word lists completely. -/
theorem diffWords_self : ∀ l : List String, diffWords l l = l.map DiffStep.keep := by
  intro l
  induction l with
  | nil => simp [diffWords]
  | cons a as ih => simp [diffWords, ih]

/-- A fully matched alignment leaves the wrong column unmarked. -/
theorem markedWrong_keep_map (l : List String) :
    markedWrong (l.map DiffStep.keep) = l := by
  induction l with
  | nil => simp [markedWrong]
  | cons a as ih => simpa [markedWrong] using ih

/-- A fully matched alignment leaves the corrected column unmarked. -/
theorem markedCorrect_keep_map (l : List String) :
    markedCorrect (l.map DiffStep.keep) = l := by
  induction l with
  | nil => simp [markedCorrect]
  | cons a as ih => simpa [markedCorrect] using ih

/-- Pure insertions contribute nothing to the wrong column. -/
theorem markedWrong_insert_map (l : List String) :
    markedWrong (l.map DiffStep.insert) = [] := by
  induction l with
  | nil => simp [markedWrong]
  | cons a as ih => simp [markedWrong, ih]

/-- Pure insertions mark every word of the corrected column. -/
theorem markedCorrect_insert_map (l : List String) :
    markedCorrect (l.map DiffStep.insert) = l.map boldMark := by
  induction l with
  | nil => simp [markedCorrect]
  | cons a as ih => simpa [markedCorrect] using ih

/-- Pure removals mark every word of the wrong column. -/
theorem markedWrong_remove_map (l : List String) :
    markedWrong (l.map DiffStep.remove) = l.map boldMark := by
  induction l with
  | nil => simp [markedWrong]
  | cons a as ih => simpa [markedWrong] using ih

/-- Pure removals contribute nothing to the corrected column. -/
theorem markedCorrect_remove_map (l : List String) :
    markedCorrect (l.map DiffStep.remove) = [] := by
  induction l with
  | nil => simp [markedCorrect]
  | cons a as ih => simp [markedCorrect, ih]

/-- When the two word lists share no word, the alignment matches nothing
and every word of both columns ends up marked. -/
theorem diffWords_disjoint_marks :
    ∀ (n : Nat) (a b : List String), a.length + b.length ≤ n →
      (∀ w ∈ a, w ∉ b) →
      markedWrong (diffWords a b) = a.map boldMark ∧
      markedCorrect (diffWords a b) = b.map boldMark := by
  intro n
  induction n with
  | zero =>
      intro a b hlen _
      match a, b with
      | [], [] => simp [diffWords, markedWrong, markedCorrect]
      | a :: as, _ => simp at hlen
      | [], b :: bs => simp at hlen
  | succ n ih =>
      intro a b hlen hdisj
      match a, b with
      | [], b =>
          simp [diffWords, markedWrong_insert_map, markedCorrect_insert_map]
      | a :: as, [] =>
          have h1 := markedWrong_remove_map (a :: as)
          have h2 := markedCorrect_remove_map (a :: as)
          simp only [List.map_cons] at h1 h2
          simp [diffWords, h1, h2]
      | a :: as, b :: bs =>
          have hab : a ≠ b := by
            intro hcontra
            exact hdisj a (List.mem_cons_self a as)
              (hcontra ▸ List.mem_cons_self b bs)
          rw [diffWords]
          simp only [if_neg hab]
          by_cases hc : countKeep (DiffStep.insert b :: diffWords (a :: as) bs) ≤
              countKeep (DiffStep.remove a :: diffWords as (b :: bs))
          · simp only [if_pos hc]
            have hrec := ih as (b :: bs) (by simp at hlen ⊢; omega)
              (fun w hw => hdisj w (List.mem_cons_of_mem a hw))
            constructor
            · simpa [markedWrong] using hrec.1
            · simpa [markedCorrect] using hrec.2
          · simp only [if_neg hc]
            have hrec := ih (a :: as) bs (by simp at hlen ⊢; omega)
              (fun w hw hmem => hdisj w hw (List.mem_cons_of_mem b hmem))
            constructor
            · simpa [markedWrong] using hrec.1
            · simpa [markedCorrect] using hrec.2

/-- The diff of a text against itself marks nothing: both columns are the
words of the text joined by single spaces. -/
theorem make_both_bold_self (x : String) :
    make_both_bold x x =
      (String.intercalate " " (pySplit x), String.intercalate " " (pySplit x)) := by
  simp [make_both_bold, diffWords_self, markedWrong_keep_map, markedCorrect_keep_map]

/-- C1: the packing budget invariant fails on the code. With the tokenizer
instantiated to `String.length` and budget 45, the input elements `0, "a"`
and `1, ` sixty `"b"`s produce two batches, and the second batch costs 100
tokens, exceeding the budget: an element that overflows while the
accumulator is non-empty is placed alone in a new batch that is never
re-checked against the budget (helpers.py lines 67-74). -/
theorem find_dumb_text_batches_budget_exceeded :
    (find_dumb_text_batches String.length 45
      [⟨0, "a"⟩, ⟨1, "bbbbbbbbbbbbbbbbbbbbbbbbbbbbbbbbbbbbbbbbbbbbbbbbbbbbbbbbbbbb"⟩]).length
        = 2 ∧
    ¬ String.length ((find_dumb_text_batches String.length 45
      [⟨0, "a"⟩, ⟨1, "bbbbbbbbbbbbbbbbbbbbbbbbbbbbbbbbbbbbbbbbbbbbbbbbbbbbbbbbbbbb"⟩]).getD 1 "")
        ≤ 45 := by
  decide

/-- C2: an element whose serialized cost alone exceeds the budget is NOT
dropped when the accumulator is non-empty at the time it is considered:
with tokenizer `String.length` and budget 46, the oversized second element
(serialized cost 100) ends up in its own produced batch and the dropped
list is empty — contradicting the claim that such an element appears in no
batch and is dropped with a warning regardless of position. -/
theorem oversized_element_not_dropped :
    find_dumb_text_batches String.length 46
      [⟨0, "cc"⟩, ⟨1, "cccccccccccccccccccccccccccccccccccccccccccccccccccccccccccc"⟩] =
      [serializeBatch [⟨0, "cc"⟩],
        serializeBatch [⟨1, "cccccccccccccccccccccccccccccccccccccccccccccccccccccccccccc"⟩]] ∧
    droppedItems String.length 46
      [⟨0, "cc"⟩, ⟨1, "cccccccccccccccccccccccccccccccccccccccccccccccccccccccccccc"⟩] = [] ∧
    46 < String.length (serializeBatch
      [⟨1, "cccccccccccccccccccccccccccccccccccccccccccccccccccccccccccc"⟩]) := by
  decide

/-- C3: when the packer produces two batches, the crawler still sends only
the first to the correction service: with tokenizer `String.length` and
budget 45, the input below yields two batches, yet the sequence of
correction calls contains only batch 0 and the second batch is not among
them. -/
theorem second_batch_never_sent :
    (find_dumb_text_batches String.length 45
      [⟨0, "d"⟩, ⟨1, "eeeeeeeeeeeeeeeeeeeeeeeeeeeeeeeeeeeeeeeeeeeeeeeeeeeeeeeeeeee"⟩]).length
        = 2 ∧
    spelling_check_calls (find_dumb_text_batches String.length 45
      [⟨0, "d"⟩, ⟨1, "eeeeeeeeeeeeeeeeeeeeeeeeeeeeeeeeeeeeeeeeeeeeeeeeeeeeeeeeeeee"⟩]) =
      some [(find_dumb_text_batches String.length 45
        [⟨0, "d"⟩, ⟨1, "eeeeeeeeeeeeeeeeeeeeeeeeeeeeeeeeeeeeeeeeeeeeeeeeeeeeeeeeeeee"⟩]).getD 0 ""] ∧
    ((find_dumb_text_batches String.length 45
      [⟨0, "d"⟩, ⟨1, "eeeeeeeeeeeeeeeeeeeeeeeeeeeeeeeeeeeeeeeeeeeeeeeeeeeeeeeeeeee"⟩]).getD 1 "")
      ∉ [(find_dumb_text_batches String.length 45
        [⟨0, "d"⟩, ⟨1, "eeeeeeeeeeeeeeeeeeeeeeeeeeeeeeeeeeeeeeeeeeeeeeeeeeeeeeeeeeee"⟩]).getD 0 ""] := by
  decide

/-- C4: packing completeness. For every tokenizer, budget and input list,
the reported-dropped elements followed by the concatenated contents of all
batches reproduce the input exactly: every element lands in exactly one
batch or is reported dropped, none is silently lost and none is
duplicated; and the strings `find_dumb_text_batches` returns are precisely
the serializations of those batches. -/
theorem packing_completeness (tok : String → Nat) (MAX : Nat)
    (elements : List Element) :
    droppedItems tok MAX elements ++ (batchItems tok MAX elements).flatten = elements ∧
    find_dumb_text_batches tok MAX elements =
      (batchItems tok MAX elements).map serializeBatch := by
  constructor
  · simpa [droppedItems, batchItems] using
      packItemsLoop_partition tok MAX elements []
  · exact find_dumb_text_batches_eq_map tok MAX elements

/-- C5: packing order preservation. For every tokenizer, budget and input,
concatenating the items of all produced batches in batch order yields the
input with the dropped elements removed (the dropped elements being the
oversized prefix), in the original order; and an empty input produces zero
batches. -/
theorem packing_order_preservation (tok : String → Nat) (MAX : Nat)
    (elements : List Element) :
    (batchItems tok MAX elements).flatten =
      elements.dropWhile (singleOver tok MAX) ∧
    droppedItems tok MAX elements = elements.takeWhile (singleOver tok MAX) ∧
    find_dumb_text_batches tok MAX elements =
      (batchItems tok MAX elements).map serializeBatch ∧
    find_dumb_text_batches tok MAX [] = [] := by
  refine ⟨batchItems_join_eq_dropWhile tok MAX elements,
    droppedItems_eq_takeWhile tok MAX elements,
    find_dumb_text_batches_eq_map tok MAX elements, ?_⟩
  simp [find_dumb_text_batches]

/-- C6: the claim fails on the code: against a single collected element, a
correction entry carrying index 5 makes the join raise an IndexError that
aborts the run — the entry is not dropped with a warning, the following
in-range entry is never processed, and no record list is produced. -/
theorem unknown_index_raises :
    buildRecords [⟨0, "hello"⟩] [⟨"x", 5⟩, ⟨"y", 0⟩] = Except.error 5 ∧
    buildRecords [⟨0, "hello"⟩] [⟨"x", 5⟩, ⟨"y", 0⟩] ≠
      Except.ok [("hello", "y")] := by
  refine ⟨rfl, ?_⟩
  intro hcontra
  rw [show buildRecords [⟨0, "hello"⟩] [⟨"x", 5⟩, ⟨"y", 0⟩] =
    Except.error 5 from rfl] at hcontra
  exact Except.noConfusion hcontra

/-- C6 amended: a correction entry whose index does not resolve in the
collected list is not dropped; it makes the join raise an IndexError:
whenever some returned entry fails the lookup, the whole join evaluates to
an error and no record list is produced at all. -/
theorem unknown_index_aborts_join (els : List Element) (rs : List Result)
    (h : ∃ r ∈ rs, pyGet els r.idx = none) :
    ∃ i, buildRecords els rs = Except.error i :=
  buildRecords_error_of_bad_idx els rs h

/-- The amended C6 statement instantiated at a concrete run. -/
theorem unknown_index_aborts_join_witness :
    (∃ r ∈ [(⟨"x", 5⟩ : Result), ⟨"y", 0⟩],
      pyGet [(⟨0, "hello"⟩ : Element)] r.idx = none) ∧
    ∃ i, buildRecords [(⟨0, "hello"⟩ : Element)] [⟨"x", 5⟩, ⟨"y", 0⟩] =
      Except.error i :=
  ⟨by decide, unknown_index_aborts_join _ _ (by decide)⟩

/-- C7: the claim fails on the code: diffing the two-space text
`"a  b"` against itself returns the whitespace-normalized `"a b"` on both
sides, so the outputs do not equal the input text unchanged. -/
theorem diff_noop_changes_whitespace :
    make_both_bold "a  b" "a  b" ≠ ("a  b", "a  b") := by
  rw [make_both_bold_self]
  decide

/-- C7 amended: the diff of a text against itself marks no word; both
outputs are the words of the text joined by single spaces — equal to the
input whenever its words are already separated by single spaces with no
leading or trailing whitespace. -/
theorem diff_noop_marks_nothing (x : String) :
    make_both_bold x x =
      (String.intercalate " " (pySplit x), String.intercalate " " (pySplit x)) :=
  make_both_bold_self x

/-- C8: when the two texts share no word, every word of both outputs is
wrapped in the visual marker. -/
theorem diff_full_replacement_marks_all (s t : String)
    (h : ∀ w ∈ pySplit s, w ∉ pySplit t) :
    make_both_bold s t =
      (String.intercalate " " ((pySplit s).map boldMark),
       String.intercalate " " ((pySplit t).map boldMark)) := by
  obtain ⟨h1, h2⟩ := diffWords_disjoint_marks
    ((pySplit s).length + (pySplit t).length) (pySplit s) (pySplit t)
    le_rfl h
  simp [make_both_bold, h1, h2]

/-- The full-replacement property at concrete texts sharing no word. -/
theorem diff_full_replacement_marks_all_witness :
    make_both_bold "aa bb" "cc dd" =
      (String.intercalate " " ((pySplit "aa bb").map boldMark),
       String.intercalate " " ((pySplit "cc dd").map boldMark)) :=
  diff_full_replacement_marks_all "aa bb" "cc dd" (by decide)

/-- Evaluation of the diff on the example record: the two texts share no
word, so every word of both columns is marked. -/
theorem make_both_bold_example :
    make_both_bold "Helo wrld" "Hello world" =
      ("**Helo** **wrld**", "**Hello** **world**") := by
  have h := diffWords_disjoint_marks 4 (pySplit "Helo wrld")
    (pySplit "Hello world") (by decide) (by decide)
  simp only [make_both_bold]
  rw [h.1, h.2]
  decide

/-- C9: the export has exactly the two columns `Wrong Text` and
`Correct Text Suggest`, one data row per correction record and no index
column — but the artifact carries no UTF-8 byte-order mark: the
`utf-8-sig` encoding requested at main.py line 186 is not applied to the
`io.StringIO` text buffer the CSV is written to. -/
theorem csv_export_no_bom :
    spell_check_export [("Helo wrld", "Hello world")] =
      "Wrong Text,Correct Text Suggest\n**Helo** **wrld**,**Hello** **world**\n" ∧
    (spell_check_export [("Helo wrld", "Hello world")]).data.head? ≠
      some (Char.ofNat 0xFEFF) := by
  have h1 : spell_check_export [("Helo wrld", "Hello world")] =
      "Wrong Text,Correct Text Suggest\n**Helo** **wrld**,**Hello** **world**\n" := by
    simp only [spell_check_export, highlight_both_columns_differences,
      List.map, make_both_bold_example]
    decide
  refine ⟨h1, ?_⟩
  rw [h1]
  decide

/-- C10: the collector assigns each element an index equal to its position
in the returned list — consecutive indices starting at 0 — so the
correction join may use a returned index directly as a list position. -/
theorem collector_idx_positional (page : String → List (Option String))
    (i : Nat) (e : Element)
    (h : (get_common_text_elements page)[i]? = some e) :
    e.idx = (i : Int) := by
  simpa using
    collectAll_idx page (base_selectors ++ special_locators) 0 i e h

/-- The collector invariant at a concrete page with a skipped extraction
failure and a whitespace-only text. -/
theorem collector_idx_positional_witness :
    ((get_common_text_elements samplePage)[1]? =
      some (⟨1, "world"⟩ : Element)) ∧
    (⟨1, "world"⟩ : Element).idx = (1 : Int) :=
  ⟨by decide, collector_idx_positional samplePage 1 ⟨1, "world"⟩ (by decide)⟩

end VnaCmc
